import Mathlib

/-!
Verification of the resilient-fetch + extraction pipeline of
`amazon_scraper.py` (class `AmazonProductScraper`).

The HTML parser (BeautifulSoup) and the HTTP transport (requests) are
external collaborators: a parsed document is embedded as an abstract
`Soup` (a table of answers to the exact `select_one` / `select` queries
the source performs), and the transport as a function from attempt index
to the outcome of that round trip.  Everything the source itself
computes on top of those collaborators (retry loop, block detection,
regular-expression scans, selector-fallback loops, record assembly,
pagination) is translated directly.
-/

set_option autoImplicit false

/-- Python `needle in hay` on strings, over explicit character lists. -/
def containsSub (needle : List Char) : List Char → Bool
  | [] => needle.isEmpty
  | c :: t => needle.isPrefixOf (c :: t) || containsSub needle t

/-- Python `s.lower()` viewed as a character list. -/
def lowerData (s : String) : List Char :=
  s.data.map Char.toLower

/-- The anti-bot test of `_make_request` (amazon_scraper.py:103):
`"robot" in response.text.lower() or "captcha" in response.text.lower()`. -/
def blocked (text : String) : Bool :=
  containsSub "robot".data (lowerData text) || containsSub "captcha".data (lowerData text)

/-- Outcome of one HTTP round trip, as seen inside the `try` block of
`_make_request`: either `requests.RequestException` was raised, or a
response with a status code and a body text came back. -/
inductive ReqOutcome where
  | exn : ReqOutcome
  | resp (status : Nat) (text : String) : ReqOutcome

/-- Observable side effects of `_make_request`: one network round trip
per loop iteration (`attempt`) and each `self._delay()` call (`delay`). -/
inductive Ev where
  | attempt : Ev
  | delay : Ev
deriving DecidableEq

/-- The common tail of the loop body of `_make_request`
(amazon_scraper.py:116-117): after a transport error or a non-200
response (503 and other codes differ only in the log message), sleep iff
`attempt < self.max_retries - 1`, then run the remaining iterations. -/
def afterAttempt (maxRetries : Int) (attempt : Nat) (tail : Option String × List Ev) :
    Option String × List Ev :=
  if (attempt : Int) < maxRetries - 1 then (tail.1, Ev.attempt :: Ev.delay :: tail.2)
  else (tail.1, Ev.attempt :: tail.2)

/-- The retry loop of `_make_request` (amazon_scraper.py:97-118) over the
remaining attempt indices.  `resp` is the mocked transport.  A clean 200
returns its body at once; a 200 whose text trips `blocked` runs
`self._delay(); continue` (note: the delay is unconditional there);
transport errors and non-200 statuses fall through to `afterAttempt`. -/
def makeRequestGo (resp : Nat → ReqOutcome) (maxRetries : Int) :
    List Nat → Option String × List Ev
  | [] => (none, [])
  | attempt :: rest =>
    match resp attempt with
    | ReqOutcome.exn => afterAttempt maxRetries attempt (makeRequestGo resp maxRetries rest)
    | ReqOutcome.resp status text =>
      if status = 200 then
        if blocked text then
          ((makeRequestGo resp maxRetries rest).1,
           Ev.attempt :: Ev.delay :: (makeRequestGo resp maxRetries rest).2)
        else (some text, [Ev.attempt])
      else afterAttempt maxRetries attempt (makeRequestGo resp maxRetries rest)

/-- `_make_request` (amazon_scraper.py:87-120): iterate the loop body over
`range(self.max_retries)`; if no iteration returned, the result is `None`
(the `exhausted` outcome).  Returns the result together with the trace of
round trips and backoff delays. -/
def makeRequest (resp : Nat → ReqOutcome) (maxRetries : Int) : Option String × List Ev :=
  makeRequestGo resp maxRetries (List.range maxRetries.toNat)

/-- The fixed user-agent pool of `AmazonProductScraper.__init__`
(amazon_scraper.py:61-67). -/
def userAgentPool : List String :=
  ["Mozilla/5.0 (Windows NT 10.0; Win64; x64) AppleWebKit/537.36 (KHTML, like Gecko) Chrome/120.0.0.0 Safari/537.36",
   "Mozilla/5.0 (Macintosh; Intel Mac OS X 10_15_7) AppleWebKit/537.36 (KHTML, like Gecko) Chrome/120.0.0.0 Safari/537.36",
   "Mozilla/5.0 (X11; Linux x86_64) AppleWebKit/537.36 (KHTML, like Gecko) Chrome/120.0.0.0 Safari/537.36",
   "Mozilla/5.0 (Windows NT 10.0; Win64; x64; rv:109.0) Gecko/20100101 Firefox/121.0",
   "Mozilla/5.0 (Macintosh; Intel Mac OS X 10_15_7) AppleWebKit/605.1.15 (KHTML, like Gecko) Version/17.2 Safari/605.1.15"]

/-- The configuration state set up by `AmazonProductScraper.__init__`
(amazon_scraper.py:48-69).  The `requests.Session` object and the log
handlers are external resources and carry no decision logic. -/
structure AmazonProductScraper where
  delay_range : Int × Int
  max_retries : Int
  user_agents : List String

/-- `AmazonProductScraper.__init__` (amazon_scraper.py:48-69).  A Python
constructor signals invalid configuration by raising, which `Except`
makes explicit; the source performs no validation at all, so every call
returns `ok`. -/
def initScraper (delayRange : Int × Int) (maxRetries : Int) :
    Except String AmazonProductScraper :=
  Except.ok { delay_range := delayRange, max_retries := maxRetries, user_agents := userAgentPool }

/-- The character class `[A-Z0-9]` of the ASIN pattern
(amazon_scraper.py:141). -/
def isAsinChar (c : Char) : Bool :=
  (decide ('A' ≤ c) && decide (c ≤ 'Z')) || (decide ('0' ≤ c) && decide (c ≤ '9'))

/-- The literal part of the ASIN pattern `/dp/([A-Z0-9]{10})`. -/
def dpLit : List Char := ['/', 'd', 'p', '/']

/-- One anchored attempt of the ASIN regular expression at the head of
`l`: the literal `/dp/` followed by exactly ten `[A-Z0-9]` characters. -/
def asinAt (l : List Char) : Option String :=
  if l.take 4 = dpLit then
    if ((l.drop 4).take 10).length = 10 ∧ ((l.drop 4).take 10).all isAsinChar
    then some (String.mk ((l.drop 4).take 10))
    else none
  else none

/-- `re.search` for the ASIN pattern: try each position left to right and
return the first (leftmost) match. -/
def asinSearch : List Char → Option String
  | [] => none
  | c :: t =>
    match asinAt (c :: t) with
    | some s => some s
    | none => asinSearch t

/-- The ASIN derivation of `scrape_product` (amazon_scraper.py:140-142):
`re.search(r'/dp/([A-Z0-9]{10})', product_url)`, group 1 on a match,
`None` otherwise. -/
def extractAsin (productUrl : String) : Option String :=
  asinSearch productUrl.data

/-- One anchored attempt of `(\d+\.?\d*)` (the rating pattern,
amazon_scraper.py:201) at a position whose head is a digit: greedily the
digits, then an optional dot, then greedily more digits. -/
def numAt (l : List Char) : List Char :=
  match l.drop (l.takeWhile Char.isDigit).length with
  | '.' :: r => l.takeWhile Char.isDigit ++ '.' :: r.takeWhile Char.isDigit
  | _ => l.takeWhile Char.isDigit

/-- `re.search(r'(\d+\.?\d*)', text)`: the match at the leftmost position
that starts with a digit, `None` when the text has no digit. -/
def findNumber : List Char → Option String
  | [] => none
  | c :: t => if c.isDigit then some (String.mk (numAt (c :: t))) else findNumber t

/-- The literal part of the image pattern (amazon_scraper.py:240), i.e.
the nine characters before the capture group of non-quote characters. -/
def hiResLit : List Char := ['"', 'h', 'i', 'R', 'e', 's', '"', ':', '"']

/-- Strip a literal: `some` of the remainder when `pat` starts `l`. -/
def dropLit : List Char → List Char → Option (List Char)
  | [], l => some l
  | _ :: _, [] => none
  | p :: ps, c :: cs => if p = c then dropLit ps cs else none

/-- `re.findall(r'"hiRes":"([^"]+)"', html)`: scan left to right; at each
position, match the literal, then a non-empty capture of non-quote
characters, then the closing quote; matches do not overlap (scanning
resumes after the closing quote).  The fuel argument is always called
with the length of the list, which each step strictly decreases under,
so it never runs out; it only serves structural termination. -/
def hiResScan : Nat → List Char → List String
  | 0, _ => []
  | _, [] => []
  | fuel + 1, c :: t =>
    match dropLit hiResLit (c :: t) with
    | some rest =>
      (fun cap =>
        if cap ≠ [] ∧ (rest.drop cap.length).take 1 = ['"'] then
          String.mk cap :: hiResScan fuel ((rest.drop cap.length).drop 1)
        else hiResScan fuel t)
        (rest.takeWhile (fun x => x ≠ '"'))
    | none => hiResScan fuel t

/-- All `hiRes` image URLs embedded in the raw document text. -/
def hiResMatches (htmlContent : String) : List String :=
  hiResScan htmlContent.data.length htmlContent.data

/-- A markup element as the source observes it: `get_text(strip=True)`,
`get_text()`, and attribute lookup `element.get(name)`. -/
structure Element where
  textStrip : String
  textRaw : String
  attr : String → Option String

/-- A parsed document (BeautifulSoup is an external collaborator): the
answers it gives to the `select_one` and `select` queries the source
issues. -/
structure Soup where
  selectOne : String → Option Element
  select : String → List Element

/-- Selector list of `_extract_title` (amazon_scraper.py:166-170). -/
def titleSelectors : List String :=
  ["#productTitle", ".product-title", "h1.a-size-large"]

/-- Selector list of `_extract_price` (amazon_scraper.py:180-186). -/
def priceSelectors : List String :=
  [".a-price .a-offscreen", ".a-price-whole", "#price_inside_buybox",
   ".a-price.a-text-price.a-size-medium.apexPriceToPay .a-offscreen",
   ".a-price-range .a-offscreen"]

/-- Selector list of `_extract_rating_count` (amazon_scraper.py:208-211). -/
def ratingCountSelectors : List String :=
  ["#acrCustomerReviewText", ".a-size-base.a-color-base"]

/-- Selector list of `_extract_availability` (amazon_scraper.py:221-225). -/
def availabilitySelectors : List String :=
  ["#availability span", ".a-size-medium.a-color-success", ".a-size-medium.a-color-price"]

/-- Selector list of `_extract_description` (amazon_scraper.py:270-274). -/
def descriptionSelectors : List String :=
  ["#productDescription p", "#aplus .aplus-p1", ".a-section.a-spacing-medium"]

/-- Loop of `_extract_title` (amazon_scraper.py:172-176): the stripped
text of the first selector that resolves to an element, with no check on
the text itself. -/
def titleGo (soup : Soup) : List String → Option String
  | [] => none
  | sel :: rest =>
    match soup.selectOne sel with
    | some element => some element.textStrip
    | none => titleGo soup rest

/-- `_extract_title` (amazon_scraper.py:164-176). -/
def extractTitle (soup : Soup) : Option String :=
  titleGo soup titleSelectors

/-- Loop of `_extract_price` (amazon_scraper.py:188-194): first selector
whose element's stripped text is non-empty and contains a dollar sign;
an element failing the filter falls through to the next selector. -/
def priceGo (soup : Soup) : List String → Option String
  | [] => none
  | sel :: rest =>
    match soup.selectOne sel with
    | some element =>
      if element.textStrip ≠ "" ∧ containsSub ['$'] element.textStrip.data
      then some element.textStrip
      else priceGo soup rest
    | none => priceGo soup rest

/-- `_extract_price` (amazon_scraper.py:178-194). -/
def extractPrice (soup : Soup) : Option String :=
  priceGo soup priceSelectors

/-- `_extract_rating` (amazon_scraper.py:196-204): the leading decimal
number in the raw text of the single `span.a-icon-alt` element. -/
def extractRating (soup : Soup) : Option String :=
  match soup.selectOne "span.a-icon-alt" with
  | some element => findNumber element.textRaw.data
  | none => none

/-- Loop of `_extract_rating_count` (amazon_scraper.py:213-217): first
selector whose element's raw lower-cased text mentions `rating`; the
returned value is the stripped text. -/
def ratingCountGo (soup : Soup) : List String → Option String
  | [] => none
  | sel :: rest =>
    match soup.selectOne sel with
    | some element =>
      if containsSub "rating".data (lowerData element.textRaw) then some element.textStrip
      else ratingCountGo soup rest
    | none => ratingCountGo soup rest

/-- `_extract_rating_count` (amazon_scraper.py:206-217). -/
def extractRatingCount (soup : Soup) : Option String :=
  ratingCountGo soup ratingCountSelectors

/-- Loop of `_extract_availability` (amazon_scraper.py:227-233): first
selector whose element's stripped text is non-empty and shorter than 100
characters. -/
def availabilityGo (soup : Soup) : List String → Option String
  | [] => none
  | sel :: rest =>
    match soup.selectOne sel with
    | some element =>
      if element.textStrip ≠ "" ∧ element.textStrip.length < 100 then some element.textStrip
      else availabilityGo soup rest
    | none => availabilityGo soup rest

/-- `_extract_availability` (amazon_scraper.py:219-233). -/
def extractAvailability (soup : Soup) : Option String :=
  availabilityGo soup availabilitySelectors

/-- `list(set(images))` (amazon_scraper.py:253).  A Python `set` iterates
in an unspecified order; this keeps the first occurrence of each URL,
which fixes one representative of that unspecified order. -/
def dedupAcc (seen : List String) : List String → List String
  | [] => []
  | x :: xs => if x ∈ seen then dedupAcc seen xs else x :: dedupAcc (x :: seen) xs

/-- `_extract_images` (amazon_scraper.py:235-253): collect every `hiRes`
URL from the raw document text; only if none was found, fall back to the
`src` attributes of `landingImage` img tags that are non-empty and
contain `http`; deduplicate the result. -/
def extractImages (soup : Soup) (htmlContent : String) : List String :=
  (fun images =>
    dedupAcc []
      (if images = [] then
        (soup.select "img[data-a-image-name=\"landingImage\"]").filterMap (fun img =>
          match img.attr "src" with
          | some src =>
            if src ≠ "" ∧ containsSub "http".data src.data then some src else none
          | none => none)
      else images))
    (hiResMatches htmlContent)

/-- `_extract_features` (amazon_scraper.py:255-266): the stripped texts
of the feature-bullet list items whose text is non-empty and longer than
10 characters, in document order. -/
def extractFeatures (soup : Soup) : List String :=
  (soup.select "#feature-bullets li span.a-list-item").filterMap (fun element =>
    if element.textStrip ≠ "" ∧ element.textStrip.length > 10 then some element.textStrip
    else none)

/-- Loop of `_extract_description` (amazon_scraper.py:276-282): first
selector whose element's stripped text is non-empty and longer than 50
characters. -/
def descriptionGo (soup : Soup) : List String → Option String
  | [] => none
  | sel :: rest =>
    match soup.selectOne sel with
    | some element =>
      if element.textStrip ≠ "" ∧ element.textStrip.length > 50 then some element.textStrip
      else descriptionGo soup rest
    | none => descriptionGo soup rest

/-- `_extract_description` (amazon_scraper.py:268-282). -/
def extractDescription (soup : Soup) : Option String :=
  descriptionGo soup descriptionSelectors

/-- A value stored in the `product_data` dictionary: a string or a list
of strings. -/
inductive Val where
  | vStr (s : String) : Val
  | vList (l : List String) : Val
deriving DecidableEq

/-- What `scrape_product` uses of a successful fetch: the parse of
`response.content` and the raw `response.text`. -/
structure Response where
  soup : Soup
  text : String

/-- The `product_data` dictionary literal of `scrape_product`
(amazon_scraper.py:144-156) before `None` removal, as an ordered list of
key / optional-value pairs (`datetime.now().isoformat()` is passed in as
`now`). -/
def buildFields (soup : Soup) (text productUrl now : String) : List (String × Option Val) :=
  [("asin", (extractAsin productUrl).map Val.vStr),
   ("url", some (Val.vStr productUrl)),
   ("title", (extractTitle soup).map Val.vStr),
   ("price", (extractPrice soup).map Val.vStr),
   ("rating", (extractRating soup).map Val.vStr),
   ("rating_count", (extractRatingCount soup).map Val.vStr),
   ("availability", (extractAvailability soup).map Val.vStr),
   ("images", some (Val.vList (extractImages soup text))),
   ("features", some (Val.vList (extractFeatures soup))),
   ("description", (extractDescription soup).map Val.vStr),
   ("scraped_at", some (Val.vStr now))]

/-- The `None`-removal comprehension of `scrape_product`
(amazon_scraper.py:159): keep exactly the keys bound to a non-`None`
value, in insertion order. -/
def dropNoneFields (fields : List (String × Option Val)) : List (String × Val) :=
  fields.filterMap (fun kv => kv.2.map (fun v => (kv.1, v)))

/-- `scrape_product` (amazon_scraper.py:122-162), with the fetch outcome
of `_make_request` passed in: `None` when the fetch failed, otherwise
the assembled record.  A response returned by `_make_request` always has
status 200 and is therefore truthy, so `if not response` is exactly the
`None` test. -/
def scrapeProduct (fetchResult : Option Response) (productUrl now : String) :
    Option (List (String × Val)) :=
  match fetchResult with
  | none => none
  | some response =>
    some (dropNoneFields (buildFields response.soup response.text productUrl now))

/-- `scrape_multiple_products` (amazon_scraper.py:323-346), with the
per-URL fetch outcome passed in.  The source appends under
`if product_data:`, which for a dictionary also requires non-emptiness;
the inter-request delays (amazon_scraper.py:343-344) produce no data. -/
def scrapeMultipleProducts (fetch : String → Option Response) (now : String) :
    List String → List (List (String × Val))
  | [] => []
  | url :: rest =>
    match scrapeProduct (fetch url) url now with
    | some productData =>
      if productData.isEmpty then scrapeMultipleProducts fetch now rest
      else productData :: scrapeMultipleProducts fetch now rest
    | none => scrapeMultipleProducts fetch now rest

/-- An anchor element of a search-result page and its `href` attribute
(amazon_scraper.py:311-312). -/
structure Anchor where
  href : Option String

/-- A parsed search-result page: the anchors selected by
`[data-component-type="s-search-result"] h2 a` (amazon_scraper.py:309). -/
structure SearchPage where
  anchors : List Anchor

/-- Observable per-page side effects of `search_products`: the logical
fetch of a page (inclusive of its internal retries) and the walker-level
`self._delay()` call of amazon_scraper.py:318. -/
inductive WEv where
  | fetchPage (page : Nat) : WEv
  | delay : WEv
deriving DecidableEq

/-- `relative_url.split('?')[0]` (amazon_scraper.py:314): the characters
before the first question mark. -/
def stripQuery (s : String) : String :=
  String.mk (s.data.takeWhile (fun c => c ≠ '?'))

/-- The search URL built for a page (amazon_scraper.py:300). -/
def searchUrl (keyword : String) (page : Nat) : String :=
  "https://www.amazon.com/s?k=" ++ keyword ++ "&page=" ++ toString page

/-- Number of walker-level delay events in a trace. -/
def delayCount : List WEv → Nat
  | [] => 0
  | WEv.delay :: t => delayCount t + 1
  | _ :: t => delayCount t

/-- The per-page loop body of `search_products` (amazon_scraper.py:299-318)
over the remaining page numbers.  `fetch` stands for `_make_request`
followed by the BeautifulSoup parse and the anchor query; `uj` is
`urllib.parse.urljoin`, an external collaborator.  A failed fetch runs
`continue`, which skips both the anchor scan and the trailing
`self._delay()`. -/
def searchGo (fetch : String → Option SearchPage) (uj : String → String → String)
    (keyword : String) : List Nat → List String × List WEv
  | [] => ([], [])
  | page :: rest =>
    match fetch (searchUrl keyword page) with
    | none =>
      ((searchGo fetch uj keyword rest).1,
       WEv.fetchPage page :: (searchGo fetch uj keyword rest).2)
    | some pg =>
      (pg.anchors.filterMap (fun a =>
        match a.href with
        | some rel =>
          if rel = "" then none
          else some (uj "https://www.amazon.com" (stripQuery rel))
        | none => none) ++ (searchGo fetch uj keyword rest).1,
       WEv.fetchPage page :: WEv.delay :: (searchGo fetch uj keyword rest).2)

/-- `search_products` (amazon_scraper.py:284-321): walk pages
`range(1, pages + 1)`, collecting resolved product URLs and the trace of
page fetches and walker-level delays. -/
def searchProducts (fetch : String → Option SearchPage) (uj : String → String → String)
    (keyword : String) (pages : Nat) : List String × List WEv :=
  searchGo fetch uj keyword (List.range' 1 pages)

/-- Number of HTTP round trips in a `makeRequest` trace. -/
def attemptCount : List Ev → Nat
  | [] => 0
  | Ev.attempt :: t => attemptCount t + 1
  | _ :: t => attemptCount t

/-! ### Helper lemmas -/

theorem afterAttempt_fst (maxRetries : Int) (attempt : Nat) (tail : Option String × List Ev) :
    (afterAttempt maxRetries attempt tail).1 = tail.1 := by
  unfold afterAttempt
  split <;> rfl

theorem getLast?_cons_of_ne_nil {α : Type} (x : α) {l : List α} (h : l ≠ []) :
    (x :: l).getLast? = l.getLast? := by
  cases l with
  | nil => exact absurd rfl h
  | cons y t => exact List.getLast?_cons_cons

theorem makeRequestGo_fst_some (resp : Nat → ReqOutcome) (maxRetries : Int) :
    ∀ (l : List Nat) (body : String),
      (makeRequestGo resp maxRetries l).1 = some body →
      blocked body = false ∧ ∃ a ∈ l, resp a = ReqOutcome.resp 200 body := by
  intro l
  induction l with
  | nil => intro body h; simp [makeRequestGo] at h
  | cons attempt rest ih =>
    intro body h
    cases hr : resp attempt with
    | exn =>
      simp only [makeRequestGo, hr, afterAttempt_fst] at h
      obtain ⟨hb, a, ha, hra⟩ := ih body h
      exact ⟨hb, a, List.mem_cons_of_mem _ ha, hra⟩
    | resp status text =>
      simp only [makeRequestGo, hr] at h
      split_ifs at h with hs hbl
      · obtain ⟨hb, a, ha, hra⟩ := ih body h
        exact ⟨hb, a, List.mem_cons_of_mem _ ha, hra⟩
      · have hbody : text = body := by simpa using h
        subst hbody
        refine ⟨Bool.eq_false_iff.mpr hbl, attempt, List.mem_cons_self _ _, ?_⟩
        rw [hr, hs]
      · rw [afterAttempt_fst] at h
        obtain ⟨hb, a, ha, hra⟩ := ih body h
        exact ⟨hb, a, List.mem_cons_of_mem _ ha, hra⟩

theorem makeRequestGo_snd_ne_nil (resp : Nat → ReqOutcome) (maxRetries : Int) :
    ∀ (l : List Nat), l ≠ [] → (makeRequestGo resp maxRetries l).2 ≠ [] := by
  intro l hl
  cases l with
  | nil => exact absurd rfl hl
  | cons attempt rest =>
    cases hr : resp attempt with
    | exn =>
      simp only [makeRequestGo, hr, afterAttempt]
      split <;> simp
    | resp status text =>
      simp only [makeRequestGo, hr]
      split_ifs with hs hbl <;> simp [afterAttempt]
      split <;> simp

theorem range_getLast? (n : Nat) (h : 1 ≤ n) : (List.range n).getLast? = some (n - 1) := by
  obtain ⟨m, rfl⟩ := Nat.exists_eq_add_of_le' h
  simp [List.range_succ, List.getLast?_concat]

theorem makeRequestGo_trailing_delay (resp : Nat → ReqOutcome) (maxRetries : Int) :
    ∀ (l : List Nat),
      ((makeRequestGo resp maxRetries l).2).getLast? = some Ev.delay →
      (makeRequestGo resp maxRetries l).1 = none ∧
        ∃ a, l.getLast? = some a ∧
          ((∃ t, resp a = ReqOutcome.resp 200 t ∧ blocked t = true) ∨
            (a : Int) < maxRetries - 1) := by
  intro l
  induction l with
  | nil => intro h; simp [makeRequestGo] at h
  | cons attempt rest ih =>
    intro h
    by_cases hrest : rest = []
    · subst hrest
      cases hr : resp attempt with
      | exn =>
        simp only [makeRequestGo, hr, afterAttempt] at h ⊢
        by_cases hc : (attempt : Int) < maxRetries - 1
        · rw [if_pos hc] at h ⊢
          exact ⟨rfl, attempt, rfl, Or.inr hc⟩
        · rw [if_neg hc] at h
          simp [makeRequestGo] at h
      | resp status text =>
        simp only [makeRequestGo, hr] at h ⊢
        split_ifs at h ⊢ with hs hbl
        · exact ⟨rfl, attempt, rfl, Or.inl ⟨text, by rw [hr, hs], hbl⟩⟩
        · simp at h
        · simp only [afterAttempt] at h ⊢
          by_cases hc : (attempt : Int) < maxRetries - 1
          · rw [if_pos hc] at h ⊢
            exact ⟨rfl, attempt, rfl, Or.inr hc⟩
          · rw [if_neg hc] at h
            simp [makeRequestGo] at h
    · have hne := makeRequestGo_snd_ne_nil resp maxRetries rest hrest
      have hlast : (attempt :: rest).getLast? = rest.getLast? :=
        getLast?_cons_of_ne_nil _ hrest
      cases hr : resp attempt with
      | exn =>
        simp only [makeRequestGo, hr, afterAttempt] at h ⊢
        by_cases hc : (attempt : Int) < maxRetries - 1
        · rw [if_pos hc] at h ⊢
          rw [List.getLast?_cons_cons, getLast?_cons_of_ne_nil _ hne] at h
          obtain ⟨h1, a, ha, hp⟩ := ih h
          exact ⟨h1, a, by rw [hlast]; exact ha, hp⟩
        · rw [if_neg hc] at h ⊢
          rw [getLast?_cons_of_ne_nil _ hne] at h
          obtain ⟨h1, a, ha, hp⟩ := ih h
          exact ⟨h1, a, by rw [hlast]; exact ha, hp⟩
      | resp status text =>
        simp only [makeRequestGo, hr] at h ⊢
        split_ifs at h ⊢ with hs hbl
        · rw [List.getLast?_cons_cons, getLast?_cons_of_ne_nil _ hne] at h
          obtain ⟨h1, a, ha, hp⟩ := ih h
          exact ⟨h1, a, by rw [hlast]; exact ha, hp⟩
        · simp at h
        · simp only [afterAttempt] at h ⊢
          by_cases hc : (attempt : Int) < maxRetries - 1
          · rw [if_pos hc] at h ⊢
            rw [List.getLast?_cons_cons, getLast?_cons_of_ne_nil _ hne] at h
            obtain ⟨h1, a, ha, hp⟩ := ih h
            exact ⟨h1, a, by rw [hlast]; exact ha, hp⟩
          · rw [if_neg hc] at h ⊢
            rw [getLast?_cons_of_ne_nil _ hne] at h
            obtain ⟨h1, a, ha, hp⟩ := ih h
            exact ⟨h1, a, by rw [hlast]; exact ha, hp⟩

theorem makeRequestGo_last_blocked (resp : Nat → ReqOutcome) (maxRetries : Int) :
    ∀ (l : List Nat) (a : Nat) (t : String), l.getLast? = some a →
      resp a = ReqOutcome.resp 200 t → blocked t = true →
      (makeRequestGo resp maxRetries l).1 = none →
      ((makeRequestGo resp maxRetries l).2).getLast? = some Ev.delay := by
  intro l
  induction l with
  | nil => intro a t ha _ _ _; simp at ha
  | cons attempt rest ih =>
    intro a t ha hrt hbt h1
    by_cases hrest : rest = []
    · subst hrest
      have haa : attempt = a := by simpa using ha
      subst haa
      simp [makeRequestGo, hrt, hbt, List.getLast?]
    · have hne := makeRequestGo_snd_ne_nil resp maxRetries rest hrest
      rw [getLast?_cons_of_ne_nil _ hrest] at ha
      cases hr : resp attempt with
      | exn =>
        simp only [makeRequestGo, hr, afterAttempt] at h1 ⊢
        by_cases hc : (attempt : Int) < maxRetries - 1
        · rw [if_pos hc] at h1 ⊢
          rw [List.getLast?_cons_cons, getLast?_cons_of_ne_nil _ hne]
          exact ih a t ha hrt hbt h1
        · rw [if_neg hc] at h1 ⊢
          rw [getLast?_cons_of_ne_nil _ hne]
          exact ih a t ha hrt hbt h1
      | resp status text =>
        simp only [makeRequestGo, hr] at h1 ⊢
        split_ifs at h1 ⊢ with hs hbl
        · rw [List.getLast?_cons_cons, getLast?_cons_of_ne_nil _ hne]
          exact ih a t ha hrt hbt h1
        · simp only [afterAttempt] at h1 ⊢
          by_cases hc : (attempt : Int) < maxRetries - 1
          · rw [if_pos hc] at h1 ⊢
            rw [List.getLast?_cons_cons, getLast?_cons_of_ne_nil _ hne]
            exact ih a t ha hrt hbt h1
          · rw [if_neg hc] at h1 ⊢
            rw [getLast?_cons_of_ne_nil _ hne]
            exact ih a t ha hrt hbt h1

/-! ### Claim C2 -/

/-- Claim C2: for every sequence of mocked responses, `_make_request` never
returns a body whose text contains an anti-bot marker; a body is handed to
the caller only when some attempt got a clean 200 carrying exactly that
body. -/
theorem c2_body_only_clean_200 (resp : Nat → ReqOutcome) (maxRetries : Int)
    (body : String) (evs : List Ev)
    (h : makeRequest resp maxRetries = (some body, evs)) :
    blocked body = false ∧
      ∃ a, a < maxRetries.toNat ∧ resp a = ReqOutcome.resp 200 body := by
  have hfst : (makeRequest resp maxRetries).1 = some body := by rw [h]
  obtain ⟨hb, a, ha, hra⟩ := makeRequestGo_fst_some resp maxRetries _ body hfst
  exact ⟨hb, a, List.mem_range.mp ha, hra⟩

/-- Witness for C2 at a transport that answers a clean 200 `ok` at once. -/
theorem c2_body_only_clean_200_witness :
    blocked "ok" = false ∧
      ∃ a, a < (3 : Int).toNat ∧
        (fun _ : Nat => ReqOutcome.resp 200 "ok") a = ReqOutcome.resp 200 "ok" :=
  c2_body_only_clean_200 (fun _ => ReqOutcome.resp 200 "ok") 3 "ok" [Ev.attempt] rfl

/-! ### Claim C4 -/

/-- Claim C4: with `max_retries = 3` and a backend answering 503 on every
request, `_make_request` issues exactly 3 HTTP attempts (the full trace is
attempt, delay, attempt, delay, attempt) and returns `None`. -/
theorem c4_always_503_three_attempts (resp : Nat → ReqOutcome)
    (h : ∀ i, ∃ t, resp i = ReqOutcome.resp 503 t) :
    makeRequest resp 3 = (none, [Ev.attempt, Ev.delay, Ev.attempt, Ev.delay, Ev.attempt]) ∧
      attemptCount (makeRequest resp 3).2 = 3 := by
  obtain ⟨t0, h0⟩ := h 0
  obtain ⟨t1, h1⟩ := h 1
  obtain ⟨t2, h2⟩ := h 2
  have e : makeRequest resp 3 =
      (none, [Ev.attempt, Ev.delay, Ev.attempt, Ev.delay, Ev.attempt]) := by
    show makeRequestGo resp 3 (List.range (Int.toNat 3)) = _
    rw [show List.range (Int.toNat 3) = [0, 1, 2] from rfl]
    simp [makeRequestGo, h0, h1, h2, afterAttempt]
  refine ⟨e, ?_⟩
  rw [e]
  rfl

/-- Witness for C4 at the constant-503 transport. -/
theorem c4_always_503_three_attempts_witness :
    makeRequest (fun _ => ReqOutcome.resp 503 "Service Unavailable") 3 =
        (none, [Ev.attempt, Ev.delay, Ev.attempt, Ev.delay, Ev.attempt]) ∧
      attemptCount (makeRequest (fun _ => ReqOutcome.resp 503 "Service Unavailable") 3).2 = 3 :=
  c4_always_503_three_attempts (fun _ => ReqOutcome.resp 503 "Service Unavailable")
    (fun _ => ⟨"Service Unavailable", rfl⟩)

/-! ### Claim C5 -/

/-- Counterexample to claim C5 as stated: with `max_retries = 1` and a
blocked 200 response, the single (hence final) attempt is followed by a
backoff delay — the trace ends in a delay event. -/
theorem c5_counterexample :
    makeRequest (fun _ => ReqOutcome.resp 200 "robot") 1 = (none, [Ev.attempt, Ev.delay]) ∧
      [Ev.attempt, Ev.delay].getLast? = some Ev.delay :=
  ⟨rfl, rfl⟩

/-- Claim C5 (amended): in every trace of `_make_request`, a trailing
backoff delay (one after the final attempt) occurs exactly when the fetch
was exhausted and the last attempt was a 200 response detected as blocked;
after a final attempt that was a transport error, a non-200 status, or a
clean success, no delay follows. -/
theorem c5_trailing_delay_iff_final_blocked (resp : Nat → ReqOutcome) (maxRetries : Int)
    (r : Option String) (evs : List Ev) (h : makeRequest resp maxRetries = (r, evs)) :
    evs.getLast? = some Ev.delay ↔
      r = none ∧ 1 ≤ maxRetries ∧
        ∃ t, resp (maxRetries.toNat - 1) = ReqOutcome.resp 200 t ∧ blocked t = true := by
  have hfst : (makeRequest resp maxRetries).1 = r := by rw [h]
  have hsnd : (makeRequest resp maxRetries).2 = evs := by rw [h]
  constructor
  · intro hd
    rw [← hsnd] at hd
    obtain ⟨h1, a, ha, hp⟩ := makeRequestGo_trailing_delay resp maxRetries _ hd
    have hn : 1 ≤ maxRetries.toNat := by
      by_contra hn
      have h0 : maxRetries.toNat = 0 := by omega
      rw [h0] at ha
      simp at ha
    rw [range_getLast? _ hn] at ha
    obtain rfl : maxRetries.toNat - 1 = a := Option.some.inj ha
    rcases hp with ⟨t, hrt, hbt⟩ | hlt
    · exact ⟨hfst ▸ h1, by omega, t, hrt, hbt⟩
    · exact absurd hlt (by omega)
  · rintro ⟨hr, hmr, t, hrt, hbt⟩
    rw [← hsnd]
    exact makeRequestGo_last_blocked resp maxRetries (List.range maxRetries.toNat)
      (maxRetries.toNat - 1) t (range_getLast? _ (by omega)) hrt hbt (hfst.trans hr)

/-- Witness for the amended C5 at the blocked single-attempt transport. -/
theorem c5_trailing_delay_iff_final_blocked_witness :
    [Ev.attempt, Ev.delay].getLast? = some Ev.delay ↔
      (none : Option String) = none ∧ (1 : Int) ≤ 1 ∧
        ∃ t, (fun _ : Nat => ReqOutcome.resp 200 "robot") ((1 : Int).toNat - 1) =
            ReqOutcome.resp 200 t ∧ blocked t = true :=
  c5_trailing_delay_iff_final_blocked (fun _ => ReqOutcome.resp 200 "robot") 1
    none [Ev.attempt, Ev.delay] rfl

/-! ### Claim C7 -/

/-- Counterexample to claim C7 as stated: constructing the scraper with
`max_retries = 0` (a non-positive retry count) succeeds, and the resulting
configuration makes every fetch perform zero attempts and return `None`. -/
theorem c7_counterexample :
    initScraper (1, 3) 0 =
        Except.ok { delay_range := (1, 3), max_retries := 0, user_agents := userAgentPool } ∧
      makeRequest (fun _ => ReqOutcome.resp 503 "Service Unavailable") 0 = (none, []) :=
  ⟨rfl, rfl⟩

/-- Claim C7 (amended): construction never fails — `__init__` performs no
validation — and with a non-positive `max_retries` the scraper silently
makes zero attempts: every fetch returns `None` with an empty trace. -/
theorem c7_init_never_fails :
    (∀ (delayRange : Int × Int) (maxRetries : Int),
        initScraper delayRange maxRetries =
          Except.ok
            { delay_range := delayRange, max_retries := maxRetries,
              user_agents := userAgentPool }) ∧
    (∀ (resp : Nat → ReqOutcome) (maxRetries : Int), maxRetries ≤ 0 →
        makeRequest resp maxRetries = (none, [])) := by
  constructor
  · intro dr mr
    rfl
  · intro resp mr hmr
    show makeRequestGo resp mr (List.range mr.toNat) = (none, [])
    rw [Int.toNat_of_nonpos hmr]
    rfl

/-- Witness for the amended C7 at a negative retry count. -/
theorem c7_init_never_fails_witness :
    makeRequest (fun _ => ReqOutcome.exn) (-2) = (none, []) :=
  c7_init_never_fails.2 (fun _ => ReqOutcome.exn) (-2) (by decide)

/-! ### ASIN extraction lemmas -/

theorem asinAt_some_decomp {l : List Char} {s : String} (h : asinAt l = some s) :
    s.data.length = 10 ∧ s.data.all isAsinChar = true ∧
      ∃ suf, l = dpLit ++ s.data ++ suf := by
  unfold asinAt at h
  split_ifs at h with h4 hc
  obtain rfl : String.mk ((l.drop 4).take 10) = s := Option.some.inj h
  refine ⟨hc.1, hc.2, (l.drop 4).drop 10, ?_⟩
  have e2 : (l.drop 4).take 10 ++ (l.drop 4).drop 10 = l.drop 4 :=
    List.take_append_drop 10 (l.drop 4)
  calc l = l.take 4 ++ l.drop 4 := (List.take_append_drop 4 l).symm
    _ = dpLit ++ ((l.drop 4).take 10 ++ (l.drop 4).drop 10) := by rw [h4, e2]
    _ = dpLit ++ (l.drop 4).take 10 ++ (l.drop 4).drop 10 := by
        rw [List.append_assoc]

theorem asinAt_of_append {tok : List Char} (suf : List Char) (hlen : tok.length = 10)
    (hall : tok.all isAsinChar = true) :
    asinAt (dpLit ++ (tok ++ suf)) = some (String.mk tok) := by
  have h4 : (dpLit ++ (tok ++ suf)).take 4 = dpLit := by
    have e : dpLit.length = 4 := rfl
    rw [← e, List.take_left]
  have hd : (dpLit ++ (tok ++ suf)).drop 4 = tok ++ suf := by
    have e : dpLit.length = 4 := rfl
    rw [← e, List.drop_left]
  have ht : ((dpLit ++ (tok ++ suf)).drop 4).take 10 = tok := by
    rw [hd, ← hlen, List.take_left]
  unfold asinAt
  rw [if_pos h4, ht, if_pos ⟨hlen, hall⟩]

theorem asinSearch_none_iff :
    ∀ l : List Char, asinSearch l = none ↔ ∀ i, asinAt (l.drop i) = none := by
  intro l
  induction l with
  | nil =>
    refine ⟨fun _ i => ?_, fun _ => rfl⟩
    rw [List.drop_nil]
    decide
  | cons c t ih =>
    cases h : asinAt (c :: t) with
    | some s =>
      simp only [asinSearch, h]
      constructor
      · intro hfalse
        exact absurd hfalse (by simp)
      · intro hall
        have := hall 0
        rw [List.drop_zero, h] at this
        exact absurd this (by simp)
    | none =>
      simp only [asinSearch, h]
      rw [ih]
      constructor
      · intro hall i
        cases i with
        | zero => rw [List.drop_zero]; exact h
        | succ j => exact hall j
      · intro hall i
        exact hall (i + 1)

theorem asinSearch_some_pos :
    ∀ (l : List Char) (s : String), asinSearch l = some s →
      ∃ i, asinAt (l.drop i) = some s ∧ ∀ j, j < i → asinAt (l.drop j) = none := by
  intro l
  induction l with
  | nil => intro s h; simp [asinSearch] at h
  | cons c t ih =>
    intro s h
    cases ha : asinAt (c :: t) with
    | some s0 =>
      rw [asinSearch, ha] at h
      obtain rfl : s0 = s := Option.some.inj h
      exact ⟨0, by rw [List.drop_zero]; exact ha, fun j hj => absurd hj (by omega)⟩
    | none =>
      rw [asinSearch, ha] at h
      obtain ⟨i, hi, hmin⟩ := ih s h
      refine ⟨i + 1, hi, ?_⟩
      intro j hj
      cases j with
      | zero => rw [List.drop_zero]; exact ha
      | succ j0 => exact hmin j0 (by omega)

theorem extractAsin_some_len {url s : String} (h : extractAsin url = some s) :
    s.data.length = 10 := by
  obtain ⟨i, hi, _⟩ := asinSearch_some_pos url.data s h
  exact (asinAt_some_decomp hi).1

theorem extractAsin_some_ne_empty {url s : String} (h : extractAsin url = some s) :
    s ≠ "" := by
  intro e
  have hd : s.data = [] := congrArg String.data e
  have := extractAsin_some_len h
  rw [hd] at this
  simp at this

/-! ### Claim C3 -/

/-- Counterexample to claim C3 as stated: the URL
`https://www.amazon.com/dp/b08n5wrwnw` contains a `/dp/` segment followed
by the 10-character alphanumeric token `b08n5wrwnw`, yet extraction
returns `None`, because the source pattern only accepts `[A-Z0-9]`. -/
theorem c3_counterexample :
    extractAsin "https://www.amazon.com/dp/b08n5wrwnw" = none ∧
      ("b08n5wrwnw" : String).data.length = 10 ∧
      ("b08n5wrwnw" : String).data.all Char.isAlphanum = true ∧
      ("https://www.amazon.com/dp/b08n5wrwnw" : String).data =
        ("https://www.amazon.com" : String).data ++ dpLit ++
          ("b08n5wrwnw" : String).data ++ [] := by
  refine ⟨?_, rfl, ?_, ?_⟩ <;> decide

/-- Claim C3 (amended): extraction returns `some` exactly when the URL
contains `/dp/` followed by ten characters from the class `[A-Z0-9]`
(uppercase letters and digits — lowercase alphanumerics do not match);
the returned token is such a 10-character token, taken at the leftmost
match position. -/
theorem c3_asin_extraction :
    (∀ (url s : String), extractAsin url = some s →
        s.data.length = 10 ∧ s.data.all isAsinChar = true ∧
          ∃ pre suf, url.data = pre ++ dpLit ++ s.data ++ suf ∧
            ∀ pre2 tok suf2, url.data = pre2 ++ dpLit ++ tok ++ suf2 →
              tok.length = 10 → tok.all isAsinChar = true →
              pre.length ≤ pre2.length) ∧
    (∀ url : String, extractAsin url = none ↔
        ∀ pre tok suf, url.data = pre ++ dpLit ++ tok ++ suf →
          tok.length = 10 → tok.all isAsinChar = true → False) := by
  have hpos : ∀ (l pre2 tok suf2 : List Char), l = pre2 ++ dpLit ++ tok ++ suf2 →
      tok.length = 10 → tok.all isAsinChar = true →
      asinAt (l.drop pre2.length) = some (String.mk tok) := by
    intro l pre2 tok suf2 he hlen hall
    have he2 : l = pre2 ++ (dpLit ++ (tok ++ suf2)) := by
      rw [he]; simp [List.append_assoc]
    rw [he2, List.drop_left]
    exact asinAt_of_append suf2 hlen hall
  constructor
  · intro url s h
    obtain ⟨i, hi, hmin⟩ := asinSearch_some_pos url.data s h
    obtain ⟨hlen, hall, suf, hdec⟩ := asinAt_some_decomp hi
    have hine : url.data.drop i ≠ [] := by
      rw [hdec]; simp [dpLit]
    have hilt : i < url.data.length := by
      by_contra hc
      exact hine (List.drop_eq_nil_iff.mpr (by omega))
    refine ⟨hlen, hall, url.data.take i, suf, ?_, ?_⟩
    · calc url.data = url.data.take i ++ url.data.drop i :=
            (List.take_append_drop i url.data).symm
        _ = url.data.take i ++ (dpLit ++ s.data ++ suf) := by rw [hdec]
        _ = url.data.take i ++ dpLit ++ s.data ++ suf := by
            simp [List.append_assoc]
    · intro pre2 tok suf2 he2 hlen2 hall2
      have hat := hpos url.data pre2 tok suf2 he2 hlen2 hall2
      have hipre : i ≤ pre2.length := by
        by_contra hc
        rw [hmin pre2.length (by omega)] at hat
        exact absurd hat (by simp)
      have : (url.data.take i).length = i := by
        rw [List.length_take]; omega
      omega
  · intro url
    constructor
    · intro h pre tok suf he hlen hall
      have hat := hpos url.data pre tok suf he hlen hall
      rw [(asinSearch_none_iff url.data).mp h pre.length] at hat
      exact absurd hat (by simp)
    · intro hall
      cases h : extractAsin url with
      | none => rfl
      | some s =>
        exfalso
        obtain ⟨i, hi, _⟩ := asinSearch_some_pos url.data s h
        obtain ⟨hlen, hal, suf, hdec⟩ := asinAt_some_decomp hi
        refine hall (url.data.take i) s.data suf ?_ (by simpa using hlen) hal
        calc url.data = url.data.take i ++ url.data.drop i :=
              (List.take_append_drop i url.data).symm
          _ = url.data.take i ++ (dpLit ++ s.data ++ suf) := by rw [hdec]
          _ = url.data.take i ++ dpLit ++ s.data ++ suf := by
              simp [List.append_assoc]

/-- Witness for the amended C3 at a well-formed product URL. -/
theorem c3_asin_extraction_witness :
    ("B08N5WRWNW" : String).data.length = 10 ∧
      ("B08N5WRWNW" : String).data.all isAsinChar = true ∧
      ∃ pre suf, ("https://www.amazon.com/dp/B08N5WRWNW" : String).data =
          pre ++ dpLit ++ ("B08N5WRWNW" : String).data ++ suf ∧
        ∀ pre2 tok suf2,
          ("https://www.amazon.com/dp/B08N5WRWNW" : String).data =
              pre2 ++ dpLit ++ tok ++ suf2 →
            tok.length = 10 → tok.all isAsinChar = true →
            pre.length ≤ pre2.length :=
  c3_asin_extraction.1 "https://www.amazon.com/dp/B08N5WRWNW" "B08N5WRWNW" rfl

/-! ### Record assembly lemmas -/

theorem mem_dropNoneFields :
    ∀ (fields : List (String × Option Val)) (k : String) (v : Val),
      (k, v) ∈ dropNoneFields fields ↔ (k, some v) ∈ fields := by
  intro fields k v
  induction fields with
  | nil => simp [dropNoneFields]
  | cons kv rest ih =>
    obtain ⟨k0, o⟩ := kv
    cases o with
    | none =>
      have e : dropNoneFields ((k0, none) :: rest) = dropNoneFields rest := rfl
      rw [e, ih]
      simp [List.mem_cons]
    | some w =>
      have e : dropNoneFields ((k0, some w) :: rest) = (k0, w) :: dropNoneFields rest := rfl
      rw [e]
      simp [List.mem_cons, ih]

theorem priceGo_ne_empty (soup : Soup) :
    ∀ (sels : List String) (s : String), priceGo soup sels = some s → s ≠ "" := by
  intro sels
  induction sels with
  | nil => intro s h; simp [priceGo] at h
  | cons sel rest ih =>
    intro s h
    cases hse : soup.selectOne sel with
    | none =>
      simp only [priceGo, hse] at h
      exact ih s h
    | some element =>
      simp only [priceGo, hse] at h
      split_ifs at h with hc
      · obtain rfl : element.textStrip = s := Option.some.inj h
        exact hc.1
      · exact ih s h

theorem availabilityGo_ne_empty (soup : Soup) :
    ∀ (sels : List String) (s : String), availabilityGo soup sels = some s → s ≠ "" := by
  intro sels
  induction sels with
  | nil => intro s h; simp [availabilityGo] at h
  | cons sel rest ih =>
    intro s h
    cases hse : soup.selectOne sel with
    | none =>
      simp only [availabilityGo, hse] at h
      exact ih s h
    | some element =>
      simp only [availabilityGo, hse] at h
      split_ifs at h with hc
      · obtain rfl : element.textStrip = s := Option.some.inj h
        exact hc.1
      · exact ih s h

theorem descriptionGo_ne_empty (soup : Soup) :
    ∀ (sels : List String) (s : String), descriptionGo soup sels = some s → s ≠ "" := by
  intro sels
  induction sels with
  | nil => intro s h; simp [descriptionGo] at h
  | cons sel rest ih =>
    intro s h
    cases hse : soup.selectOne sel with
    | none =>
      simp only [descriptionGo, hse] at h
      exact ih s h
    | some element =>
      simp only [descriptionGo, hse] at h
      split_ifs at h with hc
      · obtain rfl : element.textStrip = s := Option.some.inj h
        exact hc.1
      · exact ih s h

theorem numAt_ne_nil {c : Char} {t : List Char} (h : c.isDigit = true) :
    numAt (c :: t) ≠ [] := by
  unfold numAt
  rw [List.takeWhile_cons, if_pos h]
  split <;> simp

theorem findNumber_ne_empty :
    ∀ (l : List Char) (s : String), findNumber l = some s → s ≠ "" := by
  intro l
  induction l with
  | nil => intro s h; simp [findNumber] at h
  | cons c t ih =>
    intro s h
    simp only [findNumber] at h
    split_ifs at h with hd
    · obtain rfl : String.mk (numAt (c :: t)) = s := Option.some.inj h
      intro e
      exact numAt_ne_nil hd (congrArg String.data e)
    · exact ih s h

theorem extractRating_ne_empty {soup : Soup} {s : String}
    (h : extractRating soup = some s) : s ≠ "" := by
  unfold extractRating at h
  cases hse : soup.selectOne "span.a-icon-alt" with
  | none => rw [hse] at h; exact absurd h (by simp)
  | some element =>
    rw [hse] at h
    exact findNumber_ne_empty _ s h

theorem extractFeatures_mem_ne_empty {soup : Soup} {s : String}
    (h : s ∈ extractFeatures soup) : s ≠ "" := by
  unfold extractFeatures at h
  obtain ⟨element, _, hf⟩ := List.mem_filterMap.mp h
  split_ifs at hf with hc
  · obtain rfl : element.textStrip = s := Option.some.inj hf
    exact hc.1

theorem scrapeProduct_some_ne_nil {fr : Option Response} {url now : String}
    {r : List (String × Val)} (h : scrapeProduct fr url now = some r) : r ≠ [] := by
  cases fr with
  | none => simp [scrapeProduct] at h
  | some resp =>
    obtain rfl : dropNoneFields (buildFields resp.soup resp.text url now) = r :=
      Option.some.inj h
    have hm : ("url", Val.vStr url) ∈
        dropNoneFields (buildFields resp.soup resp.text url now) := by
      rw [mem_dropNoneFields]
      simp [buildFields]
    exact List.ne_nil_of_mem hm

/-! ### Claim C8 -/

/-- Claim C8: `scrape_product` returns `None` exactly when the fetch was
not a success — for a failed fetch it returns `None`, and for every
successful fetch it returns a record, whatever the extractors find. -/
theorem c8_record_iff_fetch_success (url now : String) :
    scrapeProduct none url now = none ∧
      ∀ resp : Response, ∃ r, scrapeProduct (some resp) url now = some r :=
  ⟨rfl, fun _ => ⟨_, rfl⟩⟩

/-! ### Claim C9 -/

/-- Claim C9: in a multi-URL run, per-URL failures are isolated — the
output is exactly the list of records of the URLs whose scrape produced
one, in input order; no failure aborts the run. -/
theorem c9_failures_isolated (fetch : String → Option Response) (now : String) :
    ∀ urls : List String,
      scrapeMultipleProducts fetch now urls =
        urls.filterMap (fun u => scrapeProduct (fetch u) u now) := by
  intro urls
  induction urls with
  | nil => rfl
  | cons url rest ih =>
    cases h : scrapeProduct (fetch url) url now with
    | none => simp only [scrapeMultipleProducts, h, List.filterMap_cons, ih]
    | some r =>
      have hne : r ≠ [] := scrapeProduct_some_ne_nil h
      cases r with
      | nil => exact absurd rfl hne
      | cons p r0 =>
        simp only [scrapeMultipleProducts, h, List.filterMap_cons, ih, List.isEmpty_cons,
          Bool.false_eq_true, if_false]

/-! ### Claim C10 -/

/-- Claim C10: for every successful fetch, the record contains the keys
`url` (bound to the input URL), `scraped_at`, `images` and `features`;
the latter two are always present as (possibly empty) lists, since only
`None`-valued fields are removed. -/
theorem c10_mandatory_keys (resp : Response) (url now : String) :
    ∃ r, scrapeProduct (some resp) url now = some r ∧
      ("url", Val.vStr url) ∈ r ∧ ("scraped_at", Val.vStr now) ∈ r ∧
      ("images", Val.vList (extractImages resp.soup resp.text)) ∈ r ∧
      ("features", Val.vList (extractFeatures resp.soup)) ∈ r := by
  refine ⟨_, rfl, ?_, ?_, ?_, ?_⟩ <;>
    · rw [mem_dropNoneFields]
      simp [buildFields]

/-! ### Claim C1 -/

/-- Counterexample to claim C1 as stated: on a document whose only
resolvable element is an empty-text title, the assembled record contains
the key `title` bound to the empty string and the keys `images` and
`features` bound to empty sequences — only `None` values are dropped. -/
theorem c1_counterexample :
    scrapeProduct
        (some
          { soup :=
              { selectOne := fun sel =>
                  if sel = "#productTitle"
                  then some { textStrip := "", textRaw := "", attr := fun _ => none }
                  else none,
                select := fun _ => [] },
            text := "" })
        "u" "t" =
      some [("url", Val.vStr "u"), ("title", Val.vStr ""), ("images", Val.vList []),
        ("features", Val.vList []), ("scraped_at", Val.vStr "t")] := by
  rfl

/-- Claim C1 (amended): the record never stores a `None` value — such
fields are omitted — but `images` and `features` are always present and
may be empty sequences, and `title` (stripped text returned unchecked)
may be present as an empty string; the string fields that pass an
acceptance filter (`asin`, `price`, `rating`, `availability`,
`description`, and each `features` entry) are non-empty when present. -/
theorem c1_record_nonempty_policy (resp : Response) (url now : String)
    (r : List (String × Val)) (h : scrapeProduct (some resp) url now = some r) :
    (∃ l, ("images", Val.vList l) ∈ r) ∧ (∃ l, ("features", Val.vList l) ∈ r) ∧
    (∀ s, ("asin", Val.vStr s) ∈ r → s ≠ "") ∧
    (∀ s, ("price", Val.vStr s) ∈ r → s ≠ "") ∧
    (∀ s, ("rating", Val.vStr s) ∈ r → s ≠ "") ∧
    (∀ s, ("availability", Val.vStr s) ∈ r → s ≠ "") ∧
    (∀ s, ("description", Val.vStr s) ∈ r → s ≠ "") ∧
    (∀ l, ("features", Val.vList l) ∈ r → ∀ s ∈ l, s ≠ "") := by
  obtain rfl : dropNoneFields (buildFields resp.soup resp.text url now) = r :=
    Option.some.inj h
  refine ⟨⟨extractImages resp.soup resp.text, ?_⟩, ⟨extractFeatures resp.soup, ?_⟩,
    ?_, ?_, ?_, ?_, ?_, ?_⟩
  · rw [mem_dropNoneFields]; simp [buildFields]
  · rw [mem_dropNoneFields]; simp [buildFields]
  · intro s hs
    rw [mem_dropNoneFields] at hs
    cases ha : extractAsin url with
    | none => simp [buildFields, ha] at hs
    | some a =>
      simp [buildFields, ha] at hs
      subst hs
      exact extractAsin_some_ne_empty ha
  · intro s hs
    rw [mem_dropNoneFields] at hs
    cases ha : extractPrice resp.soup with
    | none => simp [buildFields, ha] at hs
    | some a =>
      simp [buildFields, ha] at hs
      subst hs
      exact priceGo_ne_empty resp.soup priceSelectors s ha
  · intro s hs
    rw [mem_dropNoneFields] at hs
    cases ha : extractRating resp.soup with
    | none => simp [buildFields, ha] at hs
    | some a =>
      simp [buildFields, ha] at hs
      subst hs
      exact extractRating_ne_empty ha
  · intro s hs
    rw [mem_dropNoneFields] at hs
    cases ha : extractAvailability resp.soup with
    | none => simp [buildFields, ha] at hs
    | some a =>
      simp [buildFields, ha] at hs
      subst hs
      exact availabilityGo_ne_empty resp.soup availabilitySelectors s ha
  · intro s hs
    rw [mem_dropNoneFields] at hs
    cases ha : extractDescription resp.soup with
    | none => simp [buildFields, ha] at hs
    | some a =>
      simp [buildFields, ha] at hs
      subst hs
      exact descriptionGo_ne_empty resp.soup descriptionSelectors s ha
  · intro l hl s hsl
    rw [mem_dropNoneFields] at hl
    simp [buildFields] at hl
    subst hl
    exact extractFeatures_mem_ne_empty hsl

/-- Witness for the amended C1 at the all-empty document. -/
theorem c1_record_nonempty_policy_witness :
    (∃ l, ("images", Val.vList l) ∈
        [("url", Val.vStr "u"), ("title", Val.vStr ""), ("images", Val.vList []),
          ("features", Val.vList []), ("scraped_at", Val.vStr "t")]) ∧
    (∃ l, ("features", Val.vList l) ∈
        [("url", Val.vStr "u"), ("title", Val.vStr ""), ("images", Val.vList []),
          ("features", Val.vList []), ("scraped_at", Val.vStr "t")]) ∧
    (∀ s, ("asin", Val.vStr s) ∈
        [("url", Val.vStr "u"), ("title", Val.vStr ""), ("images", Val.vList []),
          ("features", Val.vList []), ("scraped_at", Val.vStr "t")] → s ≠ "") ∧
    (∀ s, ("price", Val.vStr s) ∈
        [("url", Val.vStr "u"), ("title", Val.vStr ""), ("images", Val.vList []),
          ("features", Val.vList []), ("scraped_at", Val.vStr "t")] → s ≠ "") ∧
    (∀ s, ("rating", Val.vStr s) ∈
        [("url", Val.vStr "u"), ("title", Val.vStr ""), ("images", Val.vList []),
          ("features", Val.vList []), ("scraped_at", Val.vStr "t")] → s ≠ "") ∧
    (∀ s, ("availability", Val.vStr s) ∈
        [("url", Val.vStr "u"), ("title", Val.vStr ""), ("images", Val.vList []),
          ("features", Val.vList []), ("scraped_at", Val.vStr "t")] → s ≠ "") ∧
    (∀ s, ("description", Val.vStr s) ∈
        [("url", Val.vStr "u"), ("title", Val.vStr ""), ("images", Val.vList []),
          ("features", Val.vList []), ("scraped_at", Val.vStr "t")] → s ≠ "") ∧
    (∀ l, ("features", Val.vList l) ∈
        [("url", Val.vStr "u"), ("title", Val.vStr ""), ("images", Val.vList []),
          ("features", Val.vList []), ("scraped_at", Val.vStr "t")] → ∀ s ∈ l, s ≠ "") :=
  c1_record_nonempty_policy
    { soup :=
        { selectOne := fun sel =>
            if sel = "#productTitle"
            then some { textStrip := "", textRaw := "", attr := fun _ => none }
            else none,
          select := fun _ => [] },
      text := "" }
    "u" "t"
    [("url", Val.vStr "u"), ("title", Val.vStr ""), ("images", Val.vList []),
      ("features", Val.vList []), ("scraped_at", Val.vStr "t")] rfl

/-! ### Claim C6 -/

/-- Counterexample to claim C6 as stated: with one page whose fetch
fails, the walker emits no delay event at all — `continue` skips the
per-page `self._delay()` — so the delay is not applied once per page
regardless of outcome. -/
theorem c6_counterexample :
    searchProducts (fun _ => none) (fun _ r => r) "laptop" 1 = ([], [WEv.fetchPage 1]) ∧
      delayCount [WEv.fetchPage 1] = 0 :=
  ⟨rfl, rfl⟩

theorem searchGo_trace (fetch : String → Option SearchPage)
    (uj : String → String → String) (keyword : String) :
    ∀ l : List Nat,
      delayCount (searchGo fetch uj keyword l).2 =
          l.countP (fun p => (fetch (searchUrl keyword p)).isSome) ∧
        ∀ p, WEv.fetchPage p ∈ (searchGo fetch uj keyword l).2 ↔ p ∈ l := by
  intro l
  induction l with
  | nil => exact ⟨rfl, fun p => by simp [searchGo]⟩
  | cons page rest ih =>
    cases hf : fetch (searchUrl keyword page) with
    | none =>
      constructor
      · simp only [searchGo, hf, delayCount, List.countP_cons, hf, Option.isSome_none,
          Bool.false_eq_true, if_false, ih.1]
        omega
      · intro p
        simp only [searchGo, hf, List.mem_cons]
        simp [ih.2 p]
    | some pg =>
      constructor
      · simp only [searchGo, hf, delayCount, List.countP_cons, Option.isSome_some,
          if_true, ih.1]
      · intro p
        simp only [searchGo, hf, List.mem_cons]
        rw [ih.2 p]
        simp

/-- Claim C6 (amended): the Listing Walker visits every page 1..pages —
a failed page fetch is skipped without aborting the walk — but the
walker-level backoff delay is applied exactly once per successfully
fetched page and not at all for a page whose fetch failed. -/
theorem c6_delay_per_successful_page (fetch : String → Option SearchPage)
    (uj : String → String → String) (keyword : String) (pages : Nat) :
    delayCount (searchProducts fetch uj keyword pages).2 =
        (List.range' 1 pages).countP (fun p => (fetch (searchUrl keyword p)).isSome) ∧
      ∀ p, WEv.fetchPage p ∈ (searchProducts fetch uj keyword pages).2 ↔
        p ∈ List.range' 1 pages :=
  searchGo_trace fetch uj keyword (List.range' 1 pages)
